import Mathlib

/-!
Shallow embedding of the crawl-and-extract engine in `backend/scraper.py`
(repository Shreyaa91/Marketing_Recommendation), together with proofs about
the stated properties of the crawler.

Modelling conventions:
* JSON values parsed from `application/ld+json` script tags are modelled by
  the inductive type `Json`; Python numbers (int and float alike) are
  modelled as rationals.
* An HTML page is modelled by the structure `Page`, which records exactly
  the observations the scraper makes of the parsed soup (script-tag
  contents, the Open-Graph meta contents, the `<h1>` text, the rating /
  review fallback elements, and the review-text elements, each in document
  order).  `get_text(..., strip=True)` results are carried as the already
  stripped strings.
* Network fetching is abstracted: a fetched page is `Option Page`
  (`none` = `get_soup` returned `None`), and the thread-pool results
  consumed by `crawl_stream` are given as a list of task outcomes in
  completion order, where `Except.error` models a future whose `.result()`
  raised and `Except.ok` carries the value returned by `scrape_product`.
* Python truthiness, `float(x)` / `int(x)` coercions and the `in`
  (substring / membership) operator are modelled explicitly; `float`
  parsing covers the sign / integer / fraction forms (exponent, inf and
  nan spellings are not needed by any page considered here).
-/

/-- JSON values, as produced by `json.loads` on a script tag.  Python dicts
are modelled as association lists in key-insertion order (the pages
considered here have no duplicate keys). -/
inductive Json where
  | null : Json
  | bool (b : Bool) : Json
  | num (q : ℚ) : Json
  | str (s : String) : Json
  | arr (items : List Json) : Json
  | obj (entries : List (String × Json)) : Json

mutual

/-- Structural equality of JSON values, modelling Python `==` (dict
equality is modelled on the insertion order, which is enough for the
values compared by the scraper). -/
def jsonBeq : Json → Json → Bool
  | .null, .null => true
  | .bool a, .bool b => a == b
  | .num a, .num b => a == b
  | .str a, .str b => a == b
  | .arr a, .arr b => jsonBeqList a b
  | .obj a, .obj b => jsonBeqObj a b
  | _, _ => false

/-- Elementwise `jsonBeq` on lists. -/
def jsonBeqList : List Json → List Json → Bool
  | [], [] => true
  | x :: xs, y :: ys => jsonBeq x y && jsonBeqList xs ys
  | _, _ => false

/-- Elementwise `jsonBeq` on key/value lists. -/
def jsonBeqObj : List (String × Json) → List (String × Json) → Bool
  | [], [] => true
  | (k1, v1) :: xs, (k2, v2) :: ys => k1 == k2 && jsonBeq v1 v2 && jsonBeqObj xs ys
  | _, _ => false

end

/-- Python `dict.get(key)`: first binding of `key` in an object, `None`
otherwise (also for non-dict values, where the code never calls `.get`). -/
def Json.get? : Json → String → Option Json
  | .obj kvs, k => (kvs.find? (fun kv => kv.1 == k)).map (·.2)
  | _, _ => none

/-- Python truthiness of a JSON value (`bool(x)`). -/
def pyTruthy : Json → Bool
  | .null => false
  | .bool b => b
  | .num q => q != 0
  | .str s => s != ""
  | .arr l => !l.isEmpty
  | .obj l => !l.isEmpty

/-- Truthiness of an optional JSON value (`None` is falsy). -/
def optTruthy : Option Json → Bool
  | none => false
  | some j => pyTruthy j

/-- Numeric value of a digit run. -/
def digitsVal (l : List Char) : ℕ :=
  l.foldl (fun a c => a * 10 + (c.toNat - 48)) 0

/-- Leading/trailing whitespace stripping (the implicit strip both
`float(s)` and `int(s)` perform), written over `List Char` so it
evaluates in the kernel. -/
def stripWs (cs : List Char) : List Char :=
  ((cs.dropWhile Char.isWhitespace).reverse.dropWhile Char.isWhitespace).reverse

/-- Python `float(s)` on a string: optional sign, then digits with an optional
fractional part (at least one digit overall); `none` models `ValueError`.
Exponent / `inf` / `nan` spellings are not modelled (no claim involves
them). -/
def parseFloat? (s : String) : Option ℚ :=
  let cs := stripWs s.toList
  let signed : ℤ × List Char :=
    match cs with
    | '-' :: r => (-1, r)
    | '+' :: r => (1, r)
    | _ => (1, cs)
  let ip := signed.2.takeWhile Char.isDigit
  let rest := signed.2.dropWhile Char.isDigit
  match rest with
  | [] => if ip.isEmpty then none else some (mkRat (signed.1 * (digitsVal ip : ℤ)) 1)
  | '.' :: fr =>
    let fp := fr.takeWhile Char.isDigit
    if !(fr.dropWhile Char.isDigit).isEmpty then none
    else if ip.isEmpty && fp.isEmpty then none
    else
      some (mkRat (signed.1 * ((digitsVal ip : ℤ) * 10 ^ fp.length + (digitsVal fp : ℤ)))
        (10 ^ fp.length))
  | _ => none

/-- Python `int(s)` on a string: optional sign then digits only; `none` models
`ValueError`. -/
def parseInt? (s : String) : Option ℤ :=
  let cs := stripWs s.toList
  let signed : ℤ × List Char :=
    match cs with
    | '-' :: r => (-1, r)
    | '+' :: r => (1, r)
    | _ => (1, cs)
  if signed.2.isEmpty || !signed.2.all Char.isDigit then none
  else some (signed.1 * (digitsVal signed.2 : ℤ))

/-- Function `safe_float` (scraper.py lines 61-65): `float(x)` with every failure
(`ValueError`, `TypeError`) coerced to `0`.  `float` of a bool is 0/1, of
a number the number itself, of `None` / lists / dicts a `TypeError`. -/
def safe_float (x : Option Json) : ℚ :=
  match x with
  | some (.bool b) => if b then 1 else 0
  | some (.num q) => q
  | some (.str s) => (parseFloat? s).getD 0
  | _ => 0

/-- Function `safe_int` (scraper.py lines 68-72): `int(x)` with every failure
coerced to `0`; `int` of a number truncates toward zero, and a string
must be an integer literal. -/
def safe_int (x : Option Json) : ℤ :=
  match x with
  | some (.bool b) => if b then 1 else 0
  | some (.num q) => Int.tdiv q.num (q.den : ℤ)
  | some (.str s) => (parseInt? s).getD 0
  | _ => 0

/-- Test `startsWithL hay needle`: `needle` is an initial segment of `hay`. -/
def startsWithL : List Char → List Char → Bool
  | _, [] => true
  | [], _ :: _ => false
  | a :: as, b :: bs => a == b && startsWithL as bs

/-- Test `containsSub hay needle`: `needle` occurs contiguously in `hay`. -/
def containsSub : List Char → List Char → Bool
  | [], n => n.isEmpty
  | h :: hs, n => startsWithL (h :: hs) n || containsSub hs n

/-- Python `needle in hay` on strings (substring test). -/
def strContains (hay needle : String) : Bool :=
  containsSub hay.toList needle.toList

/-- Python `needle in x` for a JSON value `x`: substring on strings,
membership on lists, key membership on dicts; `none` models the
`TypeError` raised on the remaining types. -/
def pyContains (needle : String) (x : Json) : Option Bool :=
  match x with
  | .str s => some (strContains s needle)
  | .arr l => some (l.any (fun j => jsonBeq j (.str needle)))
  | .obj kvs => some (kvs.any (fun kv => kv.1 == needle))
  | _ => none

/-- First maximal run of characters satisfying `p` (the `re.search` of a
character-class `+` pattern: match at the first position where the class
matches, extend maximally). -/
def firstRun (p : Char → Bool) : List Char → Option (List Char)
  | [] => none
  | c :: rest => if p c then some ((c :: rest).takeWhile p) else firstRun p rest


namespace Scraper

/-- A parsed URL, as returned by `urllib.parse.urlparse` (the `params`
component is unused by the scraper and omitted). -/
structure Url where
  scheme : String
  netloc : String
  path : String
  query : String
  fragment : String
deriving DecidableEq, Repr

/-- Function `normalize` (scraper.py lines 52-54): scheme + "://" + netloc + path,
dropping query and fragment. -/
def normalize (u : Url) : String :=
  u.scheme ++ "://" ++ u.netloc ++ u.path

/-- The URL denoted by the normalized string (same scheme, host and path,
empty query and fragment); `urlparse (normalize u)` recovers exactly this
value for well-formed URLs. -/
def normalizeU (u : Url) : Url :=
  ⟨u.scheme, u.netloc, u.path, "", ""⟩

/-- Function `is_same_domain` (scraper.py lines 57-58): equality of the full
`netloc` (host) components. -/
def is_same_domain (base new : Url) : Bool :=
  base.netloc == new.netloc

/-- An anchor's `href` attribute: either an absolute URL or a
root-relative reference.  (Directory-relative merging performed by
`urljoin` is not needed by any claim and is not modelled.) -/
inductive Href where
  | abs (u : Url) : Href
  | rootRel (path query fragment : String) : Href
deriving DecidableEq, Repr

/-- Python `urljoin(base, href)` on the modelled `href` forms. -/
def urljoin (base : Url) : Href → Url
  | .abs u => u
  | .rootRel p q f => ⟨base.scheme, base.netloc, p, q, f⟩

/-- Function `extract_product_links` (scraper.py lines 79-95).  The fetched page is
abstracted to its anchor list (`soup.find_all("a", href=True)` in document
order); `none` models a failed fetch.  The Python `set` is modelled as the
filtered list (claims about the result are membership claims). -/
def extract_product_links (base : Url) (fetched : Option (List Href)) : List Url :=
  match fetched with
  | none => []
  | some anchors =>
    (anchors.map (fun h => normalizeU (urljoin base h))).filter
      (fun link => is_same_domain base link && strContains (normalize link) "/products/")

/-- Last `1 + dots`-worth of dot-separated labels of a reversed character
list (helper for `spec_registeredDomain`, written structurally so it
evaluates in the kernel). -/
def revLastLabels : List Char → ℕ → List Char
  | [], _ => []
  | c :: rest, seen =>
    if c = '.' then
      if seen = 0 then c :: revLastLabels rest 1 else []
    else c :: revLastLabels rest seen

/-- Modelled from the spec: the "registered domain" of a host name, taken
as the last two dot-separated labels (spec §4.2 "retains only
same-registered-domain links"; the code itself has no such function). -/
def spec_registeredDomain (host : String) : String :=
  String.mk ((revLastLabels host.toList.reverse 0).reverse)


/-- An HTML element carrying a `content` attribute and a text body, as
observed through `tag.get("content")` and `tag.get_text(strip=True)`
(the text is carried already stripped). -/
structure HtmlTag where
  content : Option String
  text : String
deriving DecidableEq, Repr

/-- The element found with `itemtype="http://schema.org/AggregateRating"`
together with its `itemprop="ratingValue"` / `itemprop="reviewCount"`
descendants (scraper.py lines 232-244). -/
structure AggHtml where
  ratingValueTag : Option HtmlTag
  reviewCountTag : Option HtmlTag
deriving DecidableEq, Repr

/-- The review-widget badge element (scraper.py lines 248-254), with its
`data-average-rating` / `data-number-of-reviews` attributes. -/
structure Badge where
  dataAverageRating : Option String
  dataNumberOfReviews : Option String
deriving DecidableEq, Repr

/-- A fetched, parsed HTML page, recording exactly the observations
`scrape_product` makes of the soup.

* `ldJsonScripts`: the `application/ld+json` script tags in document
  order; `none` is a tag whose string is missing or fails `json.loads`.
* `ogTitle` / `ogDescription` / `metaPriceAmount`: `some c` when the meta
  tag exists, where `c` is its optional `content` attribute.
* `metaPriceCurrency`: the value the code stores for `"priceCurrency"` in
  the meta fallback, namely the found currency meta tag itself or `None`
  (modelled as an opaque JSON value; `Json.null` when the tag is absent).
* `h1Text`: stripped text of the first `<h1>`, when one exists.
* `aggHtml`, `badge`, `ratingText`, `reviewCountText`: the rating /
  review-count fallback elements (text already extracted).
* `reviewBodyTexts`: stripped texts of the `itemprop="reviewBody"`
  elements, in document order.
* `jdgmBodies`: for each `div.jdgm-rev` block in document order, the
  stripped text of its `div.jdgm-rev__body`, or `none` if it has none.
* `genericReviewTexts`: stripped texts of the div/p/span elements whose
  class contains "review", in document order. -/
structure Page where
  ldJsonScripts : List (Option Json)
  ogTitle : Option (Option String)
  ogDescription : Option (Option String)
  metaPriceAmount : Option (Option String)
  metaPriceCurrency : Json
  h1Text : Option String
  aggHtml : Option AggHtml
  badge : Option Badge
  ratingText : Option String
  reviewCountText : Option String
  reviewBodyTexts : List String
  jdgmBodies : List (Option String)
  genericReviewTexts : List String

/-- Test `data.get("@type") == "Product"` on a dict (scraper.py lines 140,
147, 154). -/
def isProductDict : Json → Bool
  | .obj kvs =>
    match (Json.obj kvs).get? "@type" with
    | some (.str s) => s == "Product"
    | _ => false
  | _ => false

/-- The Product found one level inside a `@graph` collection of a dict or
inside a top-level array (scraper.py lines 145-156); `none` when there is
no such item (a non-list `@graph` value yields no dict items, or raises
and is swallowed by the per-script `except`, with the same net effect). -/
def graphArrayMatch (data : Json) : Option Json :=
  match data with
  | .obj _ =>
    match data.get? "@graph" with
    | some (.arr items) => items.find? isProductDict
    | _ => none
  | .arr items => items.find? isProductDict
  | _ => none

/-- The script-scanning loop of scraper.py lines 130-158, with `acc` the
current `product_data`.  A direct top-level Product dict `break`s the
loop; a `@graph` / array match only overwrites `product_data` and the
loop continues. -/
def scanScripts : List (Option Json) → Option Json → Option Json
  | [], acc => acc
  | none :: rest, acc => scanScripts rest acc
  | some data :: rest, acc =>
    if isProductDict data then some data
    else
      scanScripts rest
        (match graphArrayMatch data with
         | some m => some m
         | none => acc)

/-- A script slot holding a direct top-level Product dict (the only kind
of match that `break`s the scan loop). -/
def isDirectProduct : Option Json → Bool
  | some j => isProductDict j
  | none => false

/-- Dict assignment `d[k] = v`: updates the binding in place when the key
exists, appends it otherwise. -/
def setKey : List (String × Json) → String → Json → List (String × Json)
  | [], k, v => [(k, v)]
  | kv :: rest, k, v =>
    if kv.1 == k then (k, v) :: rest else kv :: setKey rest k v

/-- The JSON value stored for a meta tag's `content` attribute
(`tag.get("content")`, which is `None` when the attribute is absent). -/
def jsonOfContent : Option String → Json
  | some s => .str s
  | none => .null

/-- The fallback dict after the Open-Graph title statement (scraper.py
lines 167-169). -/
def fbAfterOg (page : Page) : List (String × Json) :=
  match page.ogTitle with
  | some c => setKey [] "name" (jsonOfContent c)
  | none => []

/-- The fallback dict after the meta-description statement (lines
172-174). -/
def fbAfterDesc (page : Page) : List (String × Json) :=
  match page.ogDescription with
  | some c => setKey (fbAfterOg page) "description" (jsonOfContent c)
  | none => fbAfterOg page

/-- The fallback dict after the price-meta statement (lines 177-182);
note the code stores the currency *tag* itself, not its content. -/
def fbAfterPrice (page : Page) : List (String × Json) :=
  match page.metaPriceAmount with
  | some c =>
    setKey (fbAfterDesc page) "offers"
      (.obj [("price", jsonOfContent c), ("priceCurrency", page.metaPriceCurrency)])
  | none => fbAfterDesc page

/-- The fallback dict after the `<h1>` name fallback (lines 185-188),
taken only when the name so far is falsy. -/
def fbAfterH1 (page : Page) : List (String × Json) :=
  if optTruthy ((Json.obj (fbAfterPrice page)).get? "name") then fbAfterPrice page
  else
    match page.h1Text with
    | some t => setKey (fbAfterPrice page) "name" (.str t)
    | none => fbAfterPrice page

/-- The manual meta-tag fallback of scraper.py lines 163-192, building
the fallback `product_data` dict; `none` models the `return None` of
lines 191-192 when no name is derivable. -/
def fallbackData (page : Page) : Option Json :=
  if optTruthy ((Json.obj (fbAfterH1 page)).get? "name") then
    some (.obj (fbAfterH1 page))
  else none

/-- The Open-Graph title observation derives a falsy name: the tag is
absent, has no `content` attribute, or its content is the empty string. -/
def contentFalsy : Option (Option String) → Bool
  | some (some s) => s == ""
  | _ => true

/-- The `<h1>` observation derives a falsy name. -/
def optStrFalsy : Option String → Bool
  | some s => s == ""
  | none => true

/-- The value is a non-empty JSON string (how a "non-empty name" reads on
an `Option Json` field). -/
def isNonEmptyStr : Option Json → Bool
  | some (.str s) => s != ""
  | _ => false

/-- Value `offers` after the list unwrapping of scraper.py lines 205-206: the
first element when `offers` is a non-empty list. -/
def offersOf (pd : Json) : Option Json :=
  match pd.get? "offers" with
  | some (.arr (x :: _)) => some x
  | o => o

/-- The availability mapping of scraper.py lines 212-217 applied to the
raw `availability` value: contains "InStock" → "In Stock", contains
"OutOfStock" → "Out of Stock", else "Unknown"; `none` models the
`TypeError` that `in` raises on a non-container value (caught by the
outer handler, which turns the whole scrape into `None`). -/
def availabilityOf (raw : Json) : Option String :=
  match pyContains "InStock" raw with
  | none => none
  | some true => some "In Stock"
  | some false =>
    match pyContains "OutOfStock" raw with
    | none => none
    | some true => some "Out of Stock"
    | some false => some "Unknown"

/-- The rating / review-count computation of scraper.py lines 219-276:
the structured `aggregateRating` first, then the three rating fallbacks
(schema.org microdata block, widget badge, generic "rating" class text)
and the review-count fallback, each guarded by the current value being
zero. -/
def ratingPair (page : Page) (pd : Json) : ℚ × ℤ :=
  let p0 : ℚ × ℤ :=
    match pd.get? "aggregateRating" with
    | some (.obj kvs) =>
      (safe_float ((Json.obj kvs).get? "ratingValue"),
       safe_int ((Json.obj kvs).get? "reviewCount"))
    | _ => (0, 0)
  let p1 : ℚ × ℤ :=
    if p0.1 = 0 then
      match page.aggHtml with
      | some ah =>
        let r : ℚ :=
          match ah.ratingValueTag with
          | some tag =>
            match tag.content with
            | some c =>
              if c ≠ "" then safe_float (some (.str c))
              else safe_float (some (.str tag.text))
            | none => safe_float (some (.str tag.text))
          | none => p0.1
        let c : ℤ :=
          match ah.reviewCountTag with
          | some tag =>
            match tag.content with
            | some cc =>
              if cc ≠ "" then safe_int (some (.str cc))
              else safe_int (some (.str tag.text))
            | none => safe_int (some (.str tag.text))
          | none => p0.2
        (r, c)
      | none => p0
    else p0
  let p2 : ℚ × ℤ :=
    if p1.1 = 0 then
      match page.badge with
      | some b =>
        let r : ℚ :=
          match b.dataAverageRating with
          | some s => safe_float (some (.str s))
          | none => 0
        let c : ℤ :=
          if p1.2 = 0 then
            match b.dataNumberOfReviews with
            | some s => safe_int (some (.str s))
            | none => 0
          else p1.2
        (r, c)
      | none => p1
    else p1
  let p3 : ℚ × ℤ :=
    if p2.1 = 0 then
      match page.ratingText with
      | some t =>
        match firstRun (fun ch => ch.isDigit || ch == '.') t.toList with
        | some run => ((parseFloat? (String.mk run)).getD 0, p2.2)
        | none => p2
      | none => p2
    else p2
  if p3.2 = 0 then
    match page.reviewCountText with
    | some t =>
      match firstRun Char.isDigit t.toList with
      | some run => (p3.1, (digitsVal run : ℤ))
      | none => p3
    | none => p3
  else p3

/-- Review tier 1 (scraper.py lines 282-285): all non-empty
`itemprop="reviewBody"` texts — note: no cap. -/
def tier1 (page : Page) : List String :=
  page.reviewBodyTexts.filter (fun t => t ≠ "")

/-- Review tier 2 (scraper.py lines 288-295): the bodies of the first 5
`div.jdgm-rev` blocks, keeping the non-empty texts. -/
def tier2 (page : Page) : List String :=
  ((page.jdgmBodies.take 5).filterMap id).filter (fun t => t ≠ "")

/-- Review tier 3 (scraper.py lines 298-307): the texts of the first 5
generic "review"-class elements, keeping the non-empty ones. -/
def tier3 (page : Page) : List String :=
  (page.genericReviewTexts.take 5).filter (fun t => t ≠ "")

/-- The review cascade of scraper.py lines 279-307: a lower tier is
consulted only when every higher tier produced nothing. -/
def reviewsOf (page : Page) : List String :=
  if tier1 page ≠ [] then tier1 page
  else if tier2 page ≠ [] then tier2 page
  else tier3 page

/-- The brand extraction of scraper.py lines 309-315. -/
def brandOf (pd : Json) : Option Json :=
  match pd.get? "brand" with
  | some (.obj kvs) => (Json.obj kvs).get? "name"
  | some (.str s) => some (.str s)
  | _ => none

/-- The product record returned by `scrape_product` (scraper.py lines
317-328).  `reviews` is the list (not a DataFrame) of review texts. -/
structure ProductRecord where
  product_name : Option Json
  price : Option ℚ
  currency : Option Json
  availability : String
  rating : ℚ
  review_count : ℤ
  reviews : List String
  brand : Option Json
  description : Option Json
  product_url : String

/-- The price / currency / availability triple of scraper.py lines
199-217, or `none` when the availability `in` test raises. -/
def priceCurAvail (pd : Json) : Option (Option ℚ × Option Json × String) :=
  match offersOf pd with
  | some (.obj kvs) =>
    let offers := Json.obj kvs
    match availabilityOf ((offers.get? "availability").getD (.str "")) with
    | some av =>
      some (some (safe_float (offers.get? "price")), offers.get? "priceCurrency", av)
    | none => none
  | _ => some (none, none, "Unknown")

/-- The record-building part of `scrape_product` (scraper.py lines
195-328), run once `product_data` is determined; `none` models the
exception path (a `TypeError` from the availability `in` test reaching
the outer handler of lines 330-332). -/
def extractRecord (page : Page) (url : Url) (pd : Json) : Option ProductRecord :=
  match priceCurAvail pd with
  | none => none
  | some (price, currency, availability) =>
    let rc := ratingPair page pd
    some
      { product_name := pd.get? "name"
        price := price
        currency := currency
        availability := availability
        rating := rc.1
        review_count := rc.2
        reviews := reviewsOf page
        brand := brandOf pd
        description := pd.get? "description"
        product_url := normalize url }

/-- Function `scrape_product` (scraper.py lines 121-332).  The fetch is abstracted:
`page = none` models `get_soup` returning `None` (unreachable page);
otherwise the JSON-LD scan runs first, the meta-tag fallback is consulted
only when it found nothing, and the record is built from the resulting
`product_data`. -/
def scrape_product : Option Page → Url → Option ProductRecord
  | none, _ => none
  | some pg, url =>
    match (match scanScripts pg.ldJsonScripts none with
           | some d => some d
           | none => fallbackData pg) with
    | none => none
    | some pd => extractRecord pg url pd

/-- Test `name in visited_products` (scraper.py line 376). -/
def nameSeen (j : Json) (visited : List Json) : Bool :=
  visited.any (fun v => jsonBeq v j)

/-- The result-consuming loop of `crawl_stream` (scraper.py lines
363-385), folded over the task outcomes in completion order.
`Except.error` models a `future.result` call that raised (caught and
skipped, line 365-369); `.ok none` a task that produced no record; the
loop skips records whose name is falsy or already seen, otherwise marks
the name seen, yields the record, increments the count and stops once the
count reaches `max_products`. -/
def crawlConsume : List (Except String (Option ProductRecord)) → List Json → ℤ → ℤ →
    List ProductRecord
  | [], _, _, _ => []
  | o :: rest, visited, count, maxp =>
    match o with
    | .error _ => crawlConsume rest visited count maxp
    | .ok none => crawlConsume rest visited count maxp
    | .ok (some p) =>
      match p.product_name with
      | none => crawlConsume rest visited count maxp
      | some j =>
        if !pyTruthy j then crawlConsume rest visited count maxp
        else if nameSeen j visited then crawlConsume rest visited count maxp
        else
          p :: (if count + 1 ≥ maxp then []
                else crawlConsume rest (j :: visited) (count + 1) maxp)

/-- Function `crawl_stream` (scraper.py lines 339-385): the sequence of records
yielded for one crawl invocation, given the task outcomes in completion
order (link discovery and the thread pool are abstracted; `max_products`
is the Python int argument, default 50). -/
def crawl_stream (outcomes : List (Except String (Option ProductRecord)))
    (max_products : ℤ) : List ProductRecord :=
  crawlConsume outcomes [] 0 max_products

/-! ### Concrete fixtures used by the witnesses and counterexamples -/

/-- A fixed product-page URL. -/
def url0 : Url := ⟨"https", "example.com", "/products/x", "", ""⟩

/-- A page on which every observation is empty. -/
def emptyPage : Page :=
  { ldJsonScripts := []
    ogTitle := none
    ogDescription := none
    metaPriceAmount := none
    metaPriceCurrency := .null
    h1Text := none
    aggHtml := none
    badge := none
    ratingText := none
    reviewCountText := none
    reviewBodyTexts := []
    jdgmBodies := []
    genericReviewTexts := [] }

/-- A JSON-LD block whose only Product sits inside a `@graph` collection,
named "A". -/
def graphA : Json :=
  .obj [("@graph", .arr [.obj [("@type", .str "Product"), ("name", .str "A")]])]

/-- A direct top-level Product block named "B". -/
def productB : Json := .obj [("@type", .str "Product"), ("name", .str "B")]

/-- A page whose first script holds a `@graph` Product "A" and whose
second script is a direct Product "B" (document order: "A" first). -/
def pageGraphThenDirect : Page :=
  { emptyPage with ldJsonScripts := [some graphA, some productB] }

/-- A page whose only script is a JSON-LD Product with no `name` field
(and with no Open-Graph title and no h1 either). -/
def pageProductNoName : Page :=
  { emptyPage with ldJsonScripts := [some (.obj [("@type", .str "Product")])] }

/-- The record `scrape_product` extracts from `pageProductNoName`. -/
def recNoName : ProductRecord :=
  { product_name := none
    price := none
    currency := none
    availability := "Unknown"
    rating := 0
    review_count := 0
    reviews := []
    brand := none
    description := none
    product_url := normalize url0 }

/-- A product page with six non-empty `itemprop="reviewBody"` texts. -/
def pageSixReviews : Page :=
  { emptyPage with
    ldJsonScripts := [some productB]
    reviewBodyTexts := ["r1", "r2", "r3", "r4", "r5", "r6"] }

/-- The record `scrape_product` extracts from `pageSixReviews`. -/
def recSixReviews : ProductRecord :=
  { product_name := some (.str "B")
    price := none
    currency := none
    availability := "Unknown"
    rating := 0
    review_count := 0
    reviews := ["r1", "r2", "r3", "r4", "r5", "r6"]
    brand := none
    description := none
    product_url := normalize url0 }

/-- A product page whose `aggregateRating` carries an out-of-range rating
string "9.7" and a negative review count. -/
def pageBadRating : Page :=
  { emptyPage with
    ldJsonScripts := [some (.obj
      [("@type", .str "Product"), ("name", .str "P"),
       ("aggregateRating",
        .obj [("ratingValue", .str "9.7"), ("reviewCount", .num (-5))])])] }

/-- A product page family whose `aggregateRating` carries the JSON numbers
`q` and `n` directly. -/
def pageAgg (q : ℚ) (n : ℤ) : Page :=
  { emptyPage with
    ldJsonScripts := [some (.obj
      [("@type", .str "Product"), ("name", .str "P"),
       ("aggregateRating",
        .obj [("ratingValue", .num q), ("reviewCount", .num (n : ℚ))])])] }

/-- A product page family: Widget at 9.99 USD whose offers availability
string is `s`. -/
def availPage (s : String) : Page :=
  { emptyPage with
    ldJsonScripts := [some (.obj
      [("@type", .str "Product"), ("name", .str "Widget"),
       ("offers", .obj
         [("price", .num (mkRat 999 100)), ("priceCurrency", .str "USD"),
          ("availability", .str s)])])] }

/-- The Widget page of spec §8 (availability string "InStock"). -/
def widgetPage : Page := availPage "InStock"

/-- A crawl record with a non-empty name, used to exercise the stream. -/
def rec0 : ProductRecord :=
  { product_name := some (.str "X")
    price := none
    currency := none
    availability := "Unknown"
    rating := 0
    review_count := 0
    reviews := []
    brand := none
    description := none
    product_url := "https://example.com/products/x" }

/-- A page with no structured data and only an Open-Graph title. -/
def pageOgOnly : Page := { emptyPage with ogTitle := some (some "Gadget Pro") }

/-- The record `scrape_product` extracts from `pageOgOnly`. -/
def recOgOnly : ProductRecord :=
  { product_name := some (.str "Gadget Pro")
    price := none
    currency := none
    availability := "Unknown"
    rating := 0
    review_count := 0
    reviews := []
    brand := none
    description := none
    product_url := normalize url0 }

/-- A seed page URL at the apex domain. -/
def baseU : Url := ⟨"http", "example.com", "/", "", ""⟩

/-- A product URL on a subdomain of the seed's registered domain. -/
def subUrl : Url := ⟨"http", "shop.example.com", "/products/x", "", ""⟩

/-- The same-host product link reached by a root-relative anchor. -/
def prodLinkW : Url := ⟨"http", "example.com", "/products/y", "", ""⟩

/-! ### General lemmas about the JSON model -/

end Scraper

/-- Equality `jsonBeq` (and its list versions) is reflexive; proved by strong
induction on the size of the value. -/
theorem jsonBeq_refl_all (n : ℕ) :
    (∀ j : Json, sizeOf j ≤ n → jsonBeq j j = true) ∧
    (∀ l : List Json, sizeOf l ≤ n → jsonBeqList l l = true) ∧
    (∀ o : List (String × Json), sizeOf o ≤ n → jsonBeqObj o o = true) := by
  induction n with
  | zero =>
    refine ⟨fun j hj => ?_, fun l hl => ?_, fun o ho => ?_⟩
    · cases j <;> simp_all
    · cases l <;> simp_all
    · cases o <;> simp_all
  | succ n ih =>
    refine ⟨fun j hj => ?_, fun l hl => ?_, fun o ho => ?_⟩
    · cases j with
      | null => rfl
      | bool b => simp [jsonBeq]
      | num q => simp [jsonBeq]
      | str s => simp [jsonBeq]
      | arr l =>
        have hs : sizeOf l ≤ n := by simp at hj; omega
        simpa [jsonBeq] using ih.2.1 l hs
      | obj o =>
        have hs : sizeOf o ≤ n := by simp at hj; omega
        simpa [jsonBeq] using ih.2.2 o hs
    · cases l with
      | nil => rfl
      | cons x xs =>
        have h1 : sizeOf x ≤ n := by simp at hl; omega
        have h2 : sizeOf xs ≤ n := by simp at hl; omega
        simp [jsonBeqList, ih.1 x h1, ih.2.1 xs h2]
    · cases o with
      | nil => rfl
      | cons kv kvs =>
        obtain ⟨k, v⟩ := kv
        have h1 : sizeOf v ≤ n := by simp at ho; omega
        have h2 : sizeOf kvs ≤ n := by simp at ho; omega
        simp [jsonBeqObj, ih.1 v h1, ih.2.2 kvs h2]

theorem jsonBeq_refl (j : Json) : jsonBeq j j = true :=
  (jsonBeq_refl_all (sizeOf j)).1 j le_rfl

theorem jsonBeq_ne_of_false {a b : Json} (h : jsonBeq a b = false) : a ≠ b := by
  intro he; subst he; rw [jsonBeq_refl a] at h; exact absurd h (by simp)

namespace Scraper

/-! ### Lemmas about the crawl consumption loop -/

/-- Every record produced by the consumption loop has a truthy name that
was not yet in `visited`, and the produced records have pairwise distinct
names. -/
theorem crawlConsume_invariant (outcomes : List (Except String (Option ProductRecord))) :
    ∀ (visited : List Json) (count maxp : ℤ),
      (crawlConsume outcomes visited count maxp).Pairwise
        (fun a b => a.product_name ≠ b.product_name) ∧
      ∀ r ∈ crawlConsume outcomes visited count maxp,
        ∃ j, r.product_name = some j ∧ pyTruthy j = true ∧ nameSeen j visited = false := by
  induction outcomes with
  | nil => intro visited count maxp; simp [crawlConsume]
  | cons o rest ih =>
    intro visited count maxp
    match o with
    | .error e => simpa [crawlConsume] using ih visited count maxp
    | .ok none => simpa [crawlConsume] using ih visited count maxp
    | .ok (some p) =>
      match hn : p.product_name with
      | none => simpa [crawlConsume, hn] using ih visited count maxp
      | some j =>
        by_cases ht : pyTruthy j
        · by_cases hs : nameSeen j visited
          · simpa [crawlConsume, hn, ht, hs] using ih visited count maxp
          · by_cases hc : count + 1 ≥ maxp
            · refine ⟨?_, ?_⟩
              · simp [crawlConsume, hn, ht, hs, hc]
              · intro r hr
                simp [crawlConsume, hn, ht, hs, hc] at hr
                subst hr
                exact ⟨j, hn, ht, by simpa using hs⟩
            · have IH := ih (j :: visited) (count + 1) maxp
              refine ⟨?_, ?_⟩
              · simp only [crawlConsume, hn, ht, hs, hc]
                simp only [Bool.not_true, if_false, if_neg hc, if_neg hs]
                refine List.pairwise_cons.mpr ⟨?_, IH.1⟩
                intro b hb
                obtain ⟨j', hj', _, hseen⟩ := IH.2 b hb
                have : jsonBeq j j' = false := by
                  by_contra hbe
                  simp [nameSeen] at hseen
                  exact absurd (hseen.1) (by simpa using hbe)
                rw [hn, hj']
                intro hcon
                exact absurd (Option.some.inj hcon) (jsonBeq_ne_of_false this)
              · intro r hr
                simp only [crawlConsume, hn, ht, hs, hc] at hr
                simp only [Bool.not_true, if_false, if_neg hc, if_neg hs] at hr
                rcases List.mem_cons.mp hr with hr | hr
                · subst hr
                  exact ⟨j, hn, ht, by simpa using hs⟩
                · obtain ⟨j', hj', ht', hseen⟩ := IH.2 r hr
                  refine ⟨j', hj', ht', ?_⟩
                  simp [nameSeen] at hseen ⊢
                  exact hseen.2
        · simpa [crawlConsume, hn, ht] using ih visited count maxp

/-- C1: across one `crawl_stream` invocation, in whatever order and with
whatever outcomes the tasks complete, no two yielded records share a
`product_name` and every yielded record's name is non-empty (truthy: a
record is emitted only when its name passes the `not name` test and is
not yet in `visited_products`, and the name is added to
`visited_products` at emission). -/
theorem crawl_stream_names_unique
    (outcomes : List (Except String (Option ProductRecord))) (maxp : ℤ) :
    (crawl_stream outcomes maxp).Pairwise
      (fun a b => a.product_name ≠ b.product_name) ∧
    ∀ r ∈ crawl_stream outcomes maxp, optTruthy r.product_name = true := by
  obtain ⟨hpair, hall⟩ := crawlConsume_invariant outcomes [] 0 maxp
  refine ⟨hpair, fun r hr => ?_⟩
  obtain ⟨j, hj, ht, _⟩ := hall r hr
  simp [optTruthy, hj, ht]

/-- Witness for C1 at a concrete stream: the single yielded record has a
truthy (non-empty) name. -/
theorem crawl_stream_names_unique_witness :
    optTruthy rec0.product_name = true :=
  (crawl_stream_names_unique [Except.ok (some rec0)] 50).2 rec0
    (by exact List.mem_singleton.mpr rfl)

/-- The consumption loop emits at most `max 1 (maxp - count)` records:
the cap test only runs after a record is yielded, so one emission always
goes through. -/
theorem crawlConsume_length_le (outcomes : List (Except String (Option ProductRecord))) :
    ∀ (visited : List Json) (count maxp : ℤ),
      ((crawlConsume outcomes visited count maxp).length : ℤ) ≤ max 1 (maxp - count) := by
  induction outcomes with
  | nil => intro visited count maxp; simp [crawlConsume]
  | cons o rest ih =>
    intro visited count maxp
    match o with
    | .error e => simpa [crawlConsume] using ih visited count maxp
    | .ok none => simpa [crawlConsume] using ih visited count maxp
    | .ok (some p) =>
      match hn : p.product_name with
      | none => simpa [crawlConsume, hn] using ih visited count maxp
      | some j =>
        by_cases ht : pyTruthy j
        · by_cases hs : nameSeen j visited
          · simpa [crawlConsume, hn, ht, hs] using ih visited count maxp
          · by_cases hc : count + 1 ≥ maxp
            · simp [crawlConsume, hn, ht, hs, hc]
            · have IH := ih (j :: visited) (count + 1) maxp
              have hstep : crawlConsume (Except.ok (some p) :: rest) visited count maxp
                  = p :: crawlConsume rest (j :: visited) (count + 1) maxp := by
                simp only [crawlConsume, hn, ht, hs, hc]
                simp only [Bool.not_true, if_false, if_neg hc, if_neg hs]
                simp
              rw [hstep, List.length_cons]
              push_cast
              refine le_max_iff.mpr (Or.inr ?_)
              rcases le_max_iff.mp IH with h | h <;> omega
        · simpa [crawlConsume, hn, ht] using ih visited count maxp

/-- Counterexample for C2: with `max_products = 0` the stream still
yields one record (the claim as stated requires at most 0), because the
code tests `count >= max_products` only after yielding. -/
theorem crawl_stream_cap_counterexample :
    (crawl_stream [Except.ok (some rec0)] 0).length = 1 := rfl

/-- C2 (amended): the number of yielded records never exceeds
`max 1 max_products` — for every `maxProducts ≥ 1` the advertised bound
`length ≤ maxProducts` holds, but for `maxProducts ≤ 0` one record can
still be yielded, because the cap test runs only after a yield. -/
theorem crawl_stream_cap (outcomes : List (Except String (Option ProductRecord)))
    (maxp : ℤ) :
    ((crawl_stream outcomes maxp).length : ℤ) ≤ max 1 maxp ∧
    (1 ≤ maxp → ((crawl_stream outcomes maxp).length : ℤ) ≤ maxp) := by
  have h := crawlConsume_length_le outcomes [] 0 maxp
  rw [crawl_stream]
  constructor
  · simpa using h
  · intro h1; simp at h; omega

/-- Witness for C2 (amended) at a concrete stream: two valid results but
`max_products = 1` yields at most one record. -/
theorem crawl_stream_cap_witness :
    ((crawl_stream [Except.ok (some rec0), Except.ok (some rec0)] 1).length : ℤ) ≤ 1 :=
  (crawl_stream_cap [Except.ok (some rec0), Except.ok (some rec0)] 1).2 (by norm_num)

/-- Removing a head outcome that the loop skips does not change the
stream; lifted over an arbitrary position in the outcome list. -/
theorem crawlConsume_append_skip (o : Except String (Option ProductRecord))
    (hskip : ∀ rest visited count maxp,
      crawlConsume (o :: rest) visited count maxp = crawlConsume rest visited count maxp)
    (xs ys : List (Except String (Option ProductRecord))) :
    ∀ (visited : List Json) (count maxp : ℤ),
      crawlConsume (xs ++ o :: ys) visited count maxp
        = crawlConsume (xs ++ ys) visited count maxp := by
  induction xs with
  | nil => intro v c m; simpa using hskip ys v c m
  | cons x xs ih =>
    intro v c m
    match x with
    | .error e => simpa [crawlConsume] using ih v c m
    | .ok none => simpa [crawlConsume] using ih v c m
    | .ok (some p) =>
      match hn : p.product_name with
      | none => simpa [crawlConsume, hn] using ih v c m
      | some j =>
        by_cases ht : pyTruthy j
        · by_cases hs : nameSeen j v
          · simpa [crawlConsume, hn, ht, hs] using ih v c m
          · by_cases hc : c + 1 ≥ m
            · simp [crawlConsume, hn, ht, hs, hc]
            · simp [crawlConsume, hn, ht, hs, hc, ih (j :: v) (c + 1) m]
        · simpa [crawlConsume, hn, ht] using ih v c m

/-- C9: a task whose future raised (`Except.error`, caught at the loop
boundary and logged) or whose scrape returned no record (`.ok none`, the
blanket `except` inside `scrape_product` downgrades any worker exception
to `None`) contributes zero records, and the rest of the crawl is exactly
what it would have been without that task — whatever its position in the
completion order. -/
theorem crawl_stream_failure_isolation
    (xs ys : List (Except String (Option ProductRecord))) (e : String) (maxp : ℤ) :
    crawl_stream (xs ++ Except.error e :: ys) maxp = crawl_stream (xs ++ ys) maxp ∧
    crawl_stream (xs ++ Except.ok none :: ys) maxp = crawl_stream (xs ++ ys) maxp :=
  ⟨crawlConsume_append_skip (Except.error e) (fun _ _ _ _ => rfl) xs ys [] 0 maxp,
   crawlConsume_append_skip (Except.ok none) (fun _ _ _ _ => rfl) xs ys [] 0 maxp⟩

/-- Witness for C9 at a concrete stream: a crashed task before a good one
leaves the good task's record intact. -/
theorem crawl_stream_failure_isolation_witness :
    crawl_stream [Except.error "boom", Except.ok (some rec0)] 50
      = crawl_stream [Except.ok (some rec0)] 50 :=
  (crawl_stream_failure_isolation [] [Except.ok (some rec0)] "boom" 50).1

/-! ### Lemmas about the extraction pipeline -/

/-- The fields of a record produced by `extractRecord` that do not depend
on the offers branch. -/
theorem extractRecord_fields (pg : Page) (url : Url) (pd : Json) (r : ProductRecord)
    (h : extractRecord pg url pd = some r) :
    r.product_name = pd.get? "name" ∧ r.reviews = reviewsOf pg ∧
    r.rating = (ratingPair pg pd).1 ∧ r.review_count = (ratingPair pg pd).2 := by
  unfold extractRecord at h
  match hp : priceCurAvail pd with
  | none => rw [hp] at h; exact absurd h (by simp)
  | some (price, currency, availability) =>
    rw [hp] at h
    simp only [Option.some.injEq] at h
    subst h
    exact ⟨rfl, rfl, rfl, rfl⟩

/-- A successful scrape comes from `extractRecord` on the `product_data`
selected by the script scan, or by the meta fallback when the scan found
nothing. -/
theorem scrape_product_some_cases (pg : Page) (url : Url) (r : ProductRecord)
    (h : scrape_product (some pg) url = some r) :
    ∃ pd, extractRecord pg url pd = some r ∧
      (scanScripts pg.ldJsonScripts none = some pd ∨
       (scanScripts pg.ldJsonScripts none = none ∧ fallbackData pg = some pd)) := by
  simp only [scrape_product] at h
  match hscan : scanScripts pg.ldJsonScripts none with
  | some d =>
    rw [hscan] at h
    exact ⟨d, h, Or.inl rfl⟩
  | none =>
    rw [hscan] at h
    match hfb : fallbackData pg with
    | none => rw [hfb] at h; exact absurd h (by simp)
    | some pd =>
      rw [hfb] at h
      exact ⟨pd, h, Or.inr ⟨rfl, rfl⟩⟩

/-- C10: every element of the `reviews` list of a record returned by
`scrape_product` is a non-empty string — each collection tier appends a
text only after the `if text:` check on the stripped text. -/
theorem scrape_reviews_nonempty (pg : Page) (url : Url) (r : ProductRecord)
    (h : scrape_product (some pg) url = some r) :
    ∀ t ∈ r.reviews, t ≠ "" := by
  obtain ⟨pd, hext, _⟩ := scrape_product_some_cases pg url r h
  obtain ⟨_, hrev, _, _⟩ := extractRecord_fields pg url pd r hext
  rw [hrev]
  intro t ht
  unfold reviewsOf at ht
  split_ifs at ht with h1 h2
  · exact of_decide_eq_true (List.mem_filter.mp ht).2
  · exact of_decide_eq_true (List.mem_filter.mp ht).2
  · exact of_decide_eq_true (List.mem_filter.mp ht).2

/-- Witness for C10 at a concrete page: the first review of the
six-review product page is non-empty. -/
theorem scrape_reviews_nonempty_witness :
    scrape_product (some pageSixReviews) url0 = some recSixReviews ∧ "r1" ≠ "" :=
  ⟨rfl, scrape_reviews_nonempty pageSixReviews url0 recSixReviews rfl "r1"
    (by simp [recSixReviews])⟩

/-- Counterexample for C5: a page with six non-empty schema.org
review-body elements yields all six review texts — the claim's cap of 5
is not applied to the highest-precedence tier (the `[:5]` slice exists
only in tiers 2 and 3). -/
theorem scrape_reviews_cap_counterexample :
    scrape_product (some pageSixReviews) url0 = some recSixReviews ∧
    recSixReviews.reviews.length = 6 := ⟨rfl, rfl⟩

/-- C5 (amended): the `reviews` list is drawn from exactly one tier — the
highest-precedence tier (schema.org review bodies, then review-widget
bodies, then generic "review"-class elements) with at least one non-empty
text — and tiers are never merged; the 5-element cap holds for tiers 2
and 3 (which slice the first 5 blocks), but tier 1 is uncapped. -/
theorem scrape_reviews_tiers (pg : Page) (url : Url) (r : ProductRecord)
    (h : scrape_product (some pg) url = some r) :
    r.reviews = (if tier1 pg ≠ [] then tier1 pg
                 else if tier2 pg ≠ [] then tier2 pg else tier3 pg) ∧
    (tier2 pg).length ≤ 5 ∧ (tier3 pg).length ≤ 5 := by
  obtain ⟨pd, hext, _⟩ := scrape_product_some_cases pg url r h
  obtain ⟨_, hrev, _, _⟩ := extractRecord_fields pg url pd r hext
  refine ⟨hrev, ?_, ?_⟩
  · calc (tier2 pg).length
        ≤ ((pg.jdgmBodies.take 5).filterMap id).length := List.length_filter_le _ _
      _ ≤ (pg.jdgmBodies.take 5).length := List.length_filterMap_le _ _
      _ ≤ 5 := by simp
  · calc (tier3 pg).length
        ≤ (pg.genericReviewTexts.take 5).length := List.length_filter_le _ _
      _ ≤ 5 := by simp

/-- Witness for C5 (amended) at the six-review page: the reviews equal
tier 1 and the lower tiers obey the cap. -/
theorem scrape_reviews_tiers_witness :
    recSixReviews.reviews
        = (if tier1 pageSixReviews ≠ [] then tier1 pageSixReviews
           else if tier2 pageSixReviews ≠ [] then tier2 pageSixReviews
           else tier3 pageSixReviews) ∧
    (tier2 pageSixReviews).length ≤ 5 ∧ (tier3 pageSixReviews).length ≤ 5 :=
  scrape_reviews_tiers pageSixReviews url0 recSixReviews rfl

/-! ### Lemmas about the JSON-LD script scan (claim C3) -/

/-- When no script in `xs` is a direct top-level Product, the scan
reduces to "the last `@graph` / array match wins" (over the running
accumulator). -/
theorem scanScripts_no_direct (xs : List (Option Json)) :
    ∀ acc, (∀ o ∈ xs, isDirectProduct o = false) →
      scanScripts xs acc
        = ((xs.filterMap (fun o => o.bind graphArrayMatch)).getLast?).or acc := by
  induction xs with
  | nil => intro acc h; simp [scanScripts]
  | cons o rest ih =>
    intro acc h
    have ho := h o (List.mem_cons_self o rest)
    have hrest : ∀ x ∈ rest, isDirectProduct x = false :=
      fun x hx => h x (List.mem_cons_of_mem o hx)
    match o with
    | none => simpa [scanScripts] using ih acc hrest
    | some data =>
      have hd : isProductDict data = false := by simpa [isDirectProduct] using ho
      match hg : graphArrayMatch data with
      | none => simpa [scanScripts, hd, hg] using ih acc hrest
      | some m =>
        rw [show scanScripts (some data :: rest) acc = scanScripts rest (some m) by
          simp [scanScripts, hd, hg]]
        rw [ih (some m) hrest]
        have hfm : ((some data :: rest).filterMap (fun o => o.bind graphArrayMatch))
            = m :: rest.filterMap (fun o => o.bind graphArrayMatch) := by
          simp [List.filterMap_cons, hg]
        rw [hfm]
        cases hL : rest.filterMap (fun o => o.bind graphArrayMatch) with
        | nil => simp
        | cons y ys =>
          obtain ⟨z, hz⟩ := Option.isSome_iff_exists.mp
            (List.getLast?_isSome.mpr (List.cons_ne_nil y ys))
          rw [List.getLast?_cons_cons, hz]
          rfl

/-- The first direct top-level Product block stops the scan and is
returned, whatever `@graph` / array matches preceded it. -/
theorem scanScripts_first_direct (xs : List (Option Json)) :
    ∀ (acc : Option Json) (d : Json) (ys : List (Option Json)),
      isProductDict d = true → (∀ o ∈ xs, isDirectProduct o = false) →
      scanScripts (xs ++ some d :: ys) acc = some d := by
  induction xs with
  | nil => intro acc d ys hd h; simp [scanScripts, hd]
  | cons o rest ih =>
    intro acc d ys hd h
    have ho := h o (List.mem_cons_self o rest)
    have hrest : ∀ x ∈ rest, isDirectProduct x = false :=
      fun x hx => h x (List.mem_cons_of_mem o hx)
    match o with
    | none => simpa [scanScripts] using ih acc d ys hd hrest
    | some data =>
      have hnd : isProductDict data = false := by simpa [isDirectProduct] using ho
      match hg : graphArrayMatch data with
      | none => simpa [scanScripts, hnd, hg] using ih acc d ys hd hrest
      | some m => simpa [scanScripts, hnd, hg] using ih (some m) d ys hd hrest

/-- Counterexample for C3: on a page whose first script holds only a
`@graph`-nested Product named "A" and whose second script is a direct
top-level Product named "B", the extracted name is "B" — the later block
overrides the earlier first-in-document-order match, contradicting
"first match wins, no later Product overrides it". -/
theorem scan_order_counterexample :
    (scrape_product (some pageGraphThenDirect) url0).map (fun r => r.product_name)
        = some (some (Json.str "B")) ∧
    (scrape_product (some pageGraphThenDirect) url0).map (fun r => r.product_name)
        ≠ some (some (Json.str "A")) := by
  refine ⟨rfl, fun hcon => ?_⟩
  rw [show (scrape_product (some pageGraphThenDirect) url0).map (fun r => r.product_name)
      = some (some (Json.str "B")) from rfl] at hcon
  simp at hcon

/-- C3 (amended): scanning the structured-data blocks in document order,
the first *direct top-level* Product object ends the scan and is selected
regardless of earlier `@graph` / array matches; a Product found inside a
`@graph` collection or a top-level array only sets the provisional result
and the scan continues, so among such matches the *last* one in document
order is selected (when no direct top-level Product occurs). -/
theorem scanScripts_selection :
    (∀ (xs : List (Option Json)) (d : Json) (ys : List (Option Json)),
      isProductDict d = true → (∀ o ∈ xs, isDirectProduct o = false) →
      scanScripts (xs ++ some d :: ys) none = some d) ∧
    (∀ xs : List (Option Json), (∀ o ∈ xs, isDirectProduct o = false) →
      scanScripts xs none
        = (xs.filterMap (fun o => o.bind graphArrayMatch)).getLast?) :=
  ⟨fun xs d ys hd h => scanScripts_first_direct xs none d ys hd h,
   fun xs h => by simpa using scanScripts_no_direct xs none h⟩

/-- Witness for C3 (amended) at the two-script page: the direct Product
"B" wins over the earlier `@graph` match, and without it the `@graph`
Product "A" would be selected. -/
theorem scanScripts_selection_witness :
    scanScripts [some graphA, some productB] none = some productB ∧
    scanScripts [some graphA] none
      = ([some graphA].filterMap (fun o => o.bind graphArrayMatch)).getLast? :=
  ⟨scanScripts_selection.1 [some graphA] productB [] rfl
      (fun o ho => by rw [List.mem_singleton] at ho; subst ho; rfl),
   scanScripts_selection.2 [some graphA]
      (fun o ho => by rw [List.mem_singleton] at ho; subst ho; rfl)⟩

/-! ### Lemmas about the meta-tag fallback (claim C4) -/

/-- Reading back the key just set by `setKey`. -/
theorem get?_setKey_self (k : String) (v : Json) :
    ∀ kvs : List (String × Json), (Json.obj (setKey kvs k v)).get? k = some v := by
  intro kvs
  induction kvs with
  | nil => simp [setKey, Json.get?]
  | cons kv rest ih =>
    by_cases hk : kv.1 == k
    · simp [setKey, hk, Json.get?]
    · have hk' : (kv.1 == k) = false := by simpa using hk
      simpa [setKey, hk', Json.get?, List.find?] using ih

/-- Updating with `setKey` on a different key does not change a lookup. -/
theorem get?_setKey_other (k k' : String) (hne : (k' == k) = false) (v : Json) :
    ∀ kvs : List (String × Json),
      (Json.obj (setKey kvs k' v)).get? k = (Json.obj kvs).get? k := by
  intro kvs
  induction kvs with
  | nil => simp [setKey, Json.get?, List.find?, hne]
  | cons kv rest ih =>
    by_cases hk : kv.1 == k'
    · have hkk : (kv.1 == k) = false := by
        have he : kv.1 = k' := by simpa using hk
        simpa [he] using hne
      simp [setKey, hk, Json.get?, List.find?, hne, hkk]
    · have hk' : (kv.1 == k') = false := by simpa using hk
      by_cases hkk : kv.1 == k
      · simp [setKey, hk', Json.get?, List.find?, hkk]
      · have hkk' : (kv.1 == k) = false := by simpa using hkk
        simpa [setKey, hk', Json.get?, List.find?, hkk'] using ih

/-- The name binding after the price-meta statement is whatever the
Open-Graph statement produced. -/
theorem fbAfterPrice_name (pg : Page) :
    (Json.obj (fbAfterPrice pg)).get? "name" = (Json.obj (fbAfterOg pg)).get? "name" := by
  unfold fbAfterPrice fbAfterDesc
  rcases pg.metaPriceAmount with _ | c2 <;> rcases pg.ogDescription with _ | c1 <;>
    simp [get?_setKey_other "name" "offers" (by decide) _,
      get?_setKey_other "name" "description" (by decide) _]

/-- The name binding the Open-Graph statement produces. -/
theorem fbAfterOg_name (pg : Page) :
    (Json.obj (fbAfterOg pg)).get? "name" = none ∨
    ∃ c, (Json.obj (fbAfterOg pg)).get? "name" = some (jsonOfContent c) := by
  rcases hog : pg.ogTitle with _ | c
  · left; simp [fbAfterOg, hog, Json.get?]
  · right; exact ⟨c, by simp [fbAfterOg, hog, get?_setKey_self]⟩

theorem fbAfterH1_eq_of_truthy (pg : Page)
    (h : optTruthy ((Json.obj (fbAfterPrice pg)).get? "name") = true) :
    fbAfterH1 pg = fbAfterPrice pg := by
  unfold fbAfterH1; rw [if_pos h]

theorem fbAfterH1_eq_of_falsy_none (pg : Page)
    (h : optTruthy ((Json.obj (fbAfterPrice pg)).get? "name") = false)
    (hh : pg.h1Text = none) : fbAfterH1 pg = fbAfterPrice pg := by
  unfold fbAfterH1; rw [if_neg (by simp [h]), hh]

theorem fbAfterH1_eq_of_falsy_some (pg : Page) (t : String)
    (h : optTruthy ((Json.obj (fbAfterPrice pg)).get? "name") = false)
    (hh : pg.h1Text = some t) :
    fbAfterH1 pg = setKey (fbAfterPrice pg) "name" (.str t) := by
  unfold fbAfterH1; rw [if_neg (by simp [h]), hh]

/-- A fallback `product_data` always carries a non-empty string name. -/
theorem fallbackData_name (pg : Page) (pd : Json) (h : fallbackData pg = some pd) :
    isNonEmptyStr (pd.get? "name") = true := by
  unfold fallbackData at h
  by_cases hg : optTruthy ((Json.obj (fbAfterH1 pg)).get? "name") = true
  · rw [if_pos hg] at h
    replace h : Json.obj (fbAfterH1 pg) = pd := Option.some.inj h
    subst h
    by_cases h3 : optTruthy ((Json.obj (fbAfterPrice pg)).get? "name") = true
    · rw [fbAfterH1_eq_of_truthy pg h3] at hg ⊢
      rcases fbAfterOg_name pg with h0 | ⟨c, h0⟩
      · rw [fbAfterPrice_name, h0] at h3
        simp [optTruthy] at h3
      · rw [fbAfterPrice_name, h0] at h3 ⊢
        rcases c with _ | s
        · simp [jsonOfContent, optTruthy, pyTruthy] at h3
        · simp only [jsonOfContent, optTruthy, pyTruthy] at h3
          simpa [jsonOfContent, isNonEmptyStr] using h3
    · have h3' : optTruthy ((Json.obj (fbAfterPrice pg)).get? "name") = false := by
        simpa using h3
      rcases hh1 : pg.h1Text with _ | t
      · rw [fbAfterH1_eq_of_falsy_none pg h3' hh1] at hg
        exact absurd hg h3
      · rw [fbAfterH1_eq_of_falsy_some pg t h3' hh1] at hg ⊢
        rw [get?_setKey_self] at hg ⊢
        simp only [optTruthy, pyTruthy] at hg
        simpa [isNonEmptyStr] using hg
  · rw [if_neg hg] at h
    exact absurd h (by simp)

/-- When both name sources are falsy, the fallback rejects the page. -/
theorem fallbackData_none (pg : Page)
    (h1 : contentFalsy pg.ogTitle = true) (h2 : optStrFalsy pg.h1Text = true) :
    fallbackData pg = none := by
  have hname : optTruthy ((Json.obj (fbAfterPrice pg)).get? "name") = false := by
    rw [fbAfterPrice_name]
    rcases hog : pg.ogTitle with _ | c
    · simp [fbAfterOg, hog, Json.get?, optTruthy]
    · rcases c with _ | s
      · simp [fbAfterOg, hog, get?_setKey_self, jsonOfContent, optTruthy, pyTruthy]
      · rw [hog] at h1
        simp only [contentFalsy, beq_iff_eq] at h1
        subst h1
        simp [fbAfterOg, hog, get?_setKey_self, jsonOfContent, optTruthy, pyTruthy]
  unfold fallbackData
  rcases hh : pg.h1Text with _ | t
  · rw [fbAfterH1_eq_of_falsy_none pg hname hh, hname]
    rfl
  · rw [hh] at h2
    simp only [optStrFalsy, beq_iff_eq] at h2
    subst h2
    rw [fbAfterH1_eq_of_falsy_some pg "" hname hh, get?_setKey_self]
    rfl

/-- Counterexample for C4: a page whose only structured block is a
JSON-LD Product *without* a name field — so that no name is derivable
from structured data, Open-Graph title or `<h1>` — still yields a record
(with a null `product_name`) instead of the null the claim requires: the
name guard lives only in the meta-fallback branch, which a found Product
block skips entirely. -/
theorem scrape_name_counterexample :
    scrape_product (some pageProductNoName) url0 = some recNoName ∧
    recNoName.product_name = none := ⟨rfl, rfl⟩

/-- C4 (amended): when no JSON-LD Product block is found, every non-null
record carries a non-empty string name, and a page from which neither the
Open-Graph title nor the `<h1>` derives a truthy name is rejected with
null; when a JSON-LD Product block *is* found, the record is returned
even if it lacks a name (so the guarantee is restricted to the fallback
path). -/
theorem scrape_product_name_guard :
    (∀ (pg : Page) (url : Url) (r : ProductRecord),
      scanScripts pg.ldJsonScripts none = none →
      scrape_product (some pg) url = some r →
      isNonEmptyStr r.product_name = true) ∧
    (∀ (pg : Page) (url : Url),
      scanScripts pg.ldJsonScripts none = none →
      contentFalsy pg.ogTitle = true → optStrFalsy pg.h1Text = true →
      scrape_product (some pg) url = none) := by
  constructor
  · intro pg url r hscan h
    obtain ⟨pd, hext, hcase⟩ := scrape_product_some_cases pg url r h
    rcases hcase with hdirect | ⟨_, hfb⟩
    · rw [hscan] at hdirect; exact absurd hdirect (by simp)
    · obtain ⟨hname, _, _, _⟩ := extractRecord_fields pg url pd r hext
      rw [hname]
      exact fallbackData_name pg pd hfb
  · intro pg url hscan h1 h2
    simp only [scrape_product]
    rw [hscan, fallbackData_none pg h1 h2]

/-- Witness for C4 (amended) at concrete pages: the Open-Graph-only page
yields a record named "Gadget Pro", and the empty page is rejected. -/
theorem scrape_product_name_guard_witness :
    isNonEmptyStr recOgOnly.product_name = true ∧
    scrape_product (some emptyPage) url0 = none :=
  ⟨scrape_product_name_guard.1 pageOgOnly url0 recOgOnly rfl rfl,
   scrape_product_name_guard.2 emptyPage url0 rfl rfl rfl⟩

/-- Counterexample for C6: a page whose structured `aggregateRating`
supplies `ratingValue = "9.7"` and `reviewCount = -5` yields a record
with `rating = 9.7 ∉ [0, 5]` and `review_count = -5 < 0`: `safe_float` /
`safe_int` only coerce, they never clamp. -/
theorem rating_range_counterexample :
    (scrape_product (some pageBadRating) url0).map (fun r => (r.rating, r.review_count))
        = some (mkRat 97 10, -5) ∧
    ¬ ((mkRat 97 10 : ℚ) ≤ 5) ∧ ¬ ((0 : ℤ) ≤ -5) :=
  ⟨rfl, by decide, by decide⟩

/-- C6 (amended): the `rating` and `review_count` of a yielded record are
the page-supplied `aggregateRating` values passed through `safe_float` /
`safe_int` *unclamped* — any rational rating (also outside [0, 5]) and
any integer review count (also negative) survive to the record; only
absent or unparsable values default to 0. -/
theorem rating_passthrough (q : ℚ) (n : ℤ) :
    (scrape_product (some (pageAgg q n)) url0).map (fun r => (r.rating, r.review_count))
      = some (q, n) := by
  have hsi : safe_int (some (.num (n : ℚ))) = n := by
    simp [safe_int, Rat.num_intCast, Rat.den_intCast]
  by_cases hq : q = 0 <;> by_cases hn : n = 0 <;>
    simp [scrape_product, pageAgg, emptyPage, scanScripts, isProductDict, graphArrayMatch,
      Json.get?, List.find?, extractRecord, priceCurAvail, offersOf, ratingPair, safe_float,
      hsi, hq, hn, safe_int, Rat.num_ofNat, Rat.den_ofNat, Int.zero_tdiv]

/-- Witness for C6 (amended) at concrete out-of-range values. -/
theorem rating_passthrough_witness :
    (scrape_product (some (pageAgg 7 (-2))) url0).map (fun r => (r.rating, r.review_count))
      = some (7, -2) :=
  rating_passthrough 7 (-2)

/-- C7: the Widget page (structured Product with name "Widget", price
9.99, currency "USD", availability "InStock") extracts to exactly those
values with availability "In Stock"; and for every offers availability
string the mapping is by substring match — contains "InStock" yields "In
Stock", else contains "OutOfStock" yields "Out of Stock", else "Unknown"
(the code renders the spec's `InStock` / `OutOfStock` enum values as the
strings "In Stock" / "Out of Stock"). -/
theorem widget_extraction :
    ((scrape_product (some widgetPage) url0).map (fun r =>
        (r.product_name, r.price, r.currency, r.availability))
      = some (some (.str "Widget"), some (mkRat 999 100), some (.str "USD"), "In Stock")) ∧
    ∀ s : String,
      (scrape_product (some (availPage s)) url0).map (fun r => r.availability)
        = some (if strContains s "InStock" = true then "In Stock"
                else if strContains s "OutOfStock" = true then "Out of Stock"
                else "Unknown") := by
  refine ⟨rfl, fun s => ?_⟩
  cases hb : strContains s "InStock" <;> cases hc : strContains s "OutOfStock" <;>
    simp [scrape_product, availPage, emptyPage, scanScripts, isProductDict, graphArrayMatch,
      Json.get?, List.find?, extractRecord, priceCurAvail, offersOf, availabilityOf,
      pyContains, hb, hc]

/-- Witness for C7 at a schema.org availability URL: the substring match
maps it to "In Stock". -/
theorem widget_extraction_witness :
    (scrape_product (some (availPage "https://schema.org/InStock")) url0).map
        (fun r => r.availability) = some "In Stock" := by
  rw [widget_extraction.2 "https://schema.org/InStock"]
  rfl

/-- Counterexample for C8: a link on `shop.example.com` has the same
registered domain as the seed `example.com` and carries the
"/products/" marker, yet `extract_product_links` drops it —
`is_same_domain` compares the full `netloc` (host), not the registered
domain, so same-registered-domain links on other subdomains are NOT
retained as the claim requires. -/
theorem extract_links_subdomain_counterexample :
    spec_registeredDomain baseU.netloc = spec_registeredDomain subUrl.netloc ∧
    strContains (normalize (normalizeU subUrl)) "/products/" = true ∧
    extract_product_links baseU (some [Href.abs subUrl]) = [] :=
  ⟨by decide, by decide, rfl⟩

/-- C8 (amended): `extract_product_links` returns the empty set when the
fetch fails, and otherwise retains exactly the anchors that, resolved
against the page URL and normalized (query and fragment stripped), have
the *same full host (netloc)* as the page — not merely the same
registered domain — and whose normalized URL string contains
"/products/". -/
theorem extract_product_links_spec :
    (∀ base : Url, extract_product_links base none = []) ∧
    (∀ (base : Url) (anchors : List Href) (u : Url),
      u ∈ extract_product_links base (some anchors) ↔
        ((∃ a ∈ anchors, u = normalizeU (urljoin base a)) ∧
         is_same_domain base u = true ∧ strContains (normalize u) "/products/" = true)) := by
  refine ⟨fun base => rfl, fun base anchors u => ?_⟩
  simp only [extract_product_links, List.mem_filter, List.mem_map, Bool.and_eq_true]
  constructor
  · rintro ⟨⟨a, ha, rfl⟩, hp1, hp2⟩
    exact ⟨⟨a, ha, rfl⟩, hp1, hp2⟩
  · rintro ⟨⟨a, ha, rfl⟩, h1, h2⟩
    exact ⟨⟨a, ha, rfl⟩, h1, h2⟩

/-- Witness for C8 (amended): a root-relative anchor resolves onto the
seed's host, its query is stripped, and it is retained. -/
theorem extract_product_links_spec_witness :
    prodLinkW ∈ extract_product_links baseU (some [Href.rootRel "/products/y" "a=1" "frag"]) :=
  (extract_product_links_spec.2 baseU [Href.rootRel "/products/y" "a=1" "frag"] prodLinkW).mpr
    ⟨⟨Href.rootRel "/products/y" "a=1" "frag", List.mem_singleton.mpr rfl, rfl⟩,
     by decide, by decide⟩
